import Mathlib

/-!
Verification of the extraction pipeline of the pokemon_analytics repository
(source file: extraction.py).

The embedding models JSON-decoded Python values as the inductive type JValue,
Python attribute/subscript/iteration semantics (including the exceptions they
raise) as functions into an Except monad, and each method of the Extraction
class as a Lean function over this model.  Network effects are modelled by an
explicit world (a function from URL strings to optional JSON payloads), and
the observable side effects of extract_data (log lines, the single sink write)
as an explicit event list.
-/

/-- A JSON-decoded Python value: None, a number (modelled exactly as a
rational, covering ints and the floats produced by division), a string, a
list, or a dict with string keys (JSON object keys are always strings). -/
inductive JValue where
  | null : JValue
  | num : ℚ → JValue
  | str : String → JValue
  | arr : List JValue → JValue
  | obj : List (String × JValue) → JValue

/-- The Python exceptions that the modelled dict/list operations can raise. -/
inductive PyErr where
  | attributeError : PyErr
  | keyError : PyErr
  | indexError : PyErr
  | typeError : PyErr
deriving DecidableEq

/-- First-match lookup in an object's field list (JSON objects produced by
json.loads have unique keys, so first-match equals dict lookup). -/
def objGet : List (String × JValue) → String → Option JValue
  | [], _ => none
  | (k, v) :: rest, key => if k = key then some v else objGet rest key

/-- Python d.get(key): returns the value or None when the key is missing;
raises AttributeError when the receiver is not a dict. -/
def pyGet (v : JValue) (key : String) : Except PyErr JValue :=
  match v with
  | .obj fs => .ok ((objGet fs key).getD .null)
  | _ => .error .attributeError

/-- Python d.get(key, default): returns the value or the default when the
key is missing; raises AttributeError when the receiver is not a dict. -/
def pyGetD (v : JValue) (key : String) (dflt : JValue) : Except PyErr JValue :=
  match v with
  | .obj fs => .ok ((objGet fs key).getD dflt)
  | _ => .error .attributeError

/-- Python d[key] for a string key: KeyError when missing, TypeError when the
receiver is a list, a string, a number or None. -/
def pySubscript (v : JValue) (key : String) : Except PyErr JValue :=
  match v with
  | .obj fs =>
    match objGet fs key with
    | some x => .ok x
    | none => .error .keyError
  | _ => .error .typeError

/-- Python v[i] for a nonnegative integer index: IndexError past the end of a
list or string, KeyError on a JSON-decoded dict (whose keys are all strings),
TypeError on numbers and None. -/
def pyIndex (v : JValue) (i : Nat) : Except PyErr JValue :=
  match v with
  | .arr xs =>
    match xs.get? i with
    | some x => .ok x
    | none => .error .indexError
  | .str s =>
    match s.toList.get? i with
    | some c => .ok (.str (String.singleton c))
    | none => .error .indexError
  | .obj _ => .error .keyError
  | _ => .error .typeError

/-- Python iteration over a value: a list yields its elements, a dict its
keys, a string its characters; numbers and None raise TypeError. -/
def pyIter (v : JValue) : Except PyErr (List JValue) :=
  match v with
  | .arr xs => .ok xs
  | .obj fs => .ok (fs.map (fun kv => .str kv.1))
  | .str s => .ok (s.toList.map (fun c => .str (String.singleton c)))
  | _ => .error .typeError

/-- Python v / 10: exact division for a number (ints and floats both divide;
the model is exact rational division), TypeError for every other value. -/
def pyDiv10 (v : JValue) : Except PyErr ℚ :=
  match v with
  | .num q => .ok (q / 10)
  | _ => .error .typeError

/-- Normalized pokemon record, one output element of the pokemon branch of
transform_data.  stats is kept as the ordered key-value pairs of the built
dict; height and weight are the exact results of the divisions by 10. -/
structure PokemonRecord where
  id : JValue
  order : JValue
  name : JValue
  stats : List (JValue × JValue)
  types : List JValue
  moves : List JValue
  height : ℚ
  weight : ℚ
  species : JValue
  game_indices : List JValue

/-- Normalized move record (the output key named class in the source is the
field dmgClass here, class being reserved in Lean). -/
structure MoveRecord where
  id : JValue
  name : JValue
  power : JValue
  pp : JValue
  type : JValue
  dmgClass : JValue

/-- Normalized type record with the six damage-relation lists. -/
structure TypeRecord where
  id : JValue
  name : JValue
  double_damage_from : List JValue
  double_damage_to : List JValue
  half_damage_from : List JValue
  half_damage_to : List JValue
  no_damage_from : List JValue
  no_damage_to : List JValue

/-- Normalized ability record. -/
structure AbilityRecord where
  id : JValue
  name : JValue
  pokemon : List JValue

/-- Normalized item record (category keeps whatever value the weird
default chain get(category, {}).get(name, []) of the source yields). -/
structure ItemRecord where
  id : JValue
  name : JValue
  category : JValue

/-- A normalized record of any of the five record classes. -/
inductive NormalizedRecord where
  | pokemon : PokemonRecord → NormalizedRecord
  | move : MoveRecord → NormalizedRecord
  | type : TypeRecord → NormalizedRecord
  | ability : AbilityRecord → NormalizedRecord
  | item : ItemRecord → NormalizedRecord

/-- The pokemon branch of transform_data for one payload, field expressions
in source order (extraction.py lines 110-133). -/
def transformPokemon (p : JValue) : Except PyErr PokemonRecord := do
  let idv ← pyGet p "id"
  let orderv ← pyGet p "order"
  let formsv ← pyGetD p "forms" (.arr [.obj []])
  let firstForm ← pyIndex formsv 0
  let namev ← pyGet firstForm "name"
  let statsRaw ← pyGetD p "stats" (.arr [])
  let statsItems ← pyIter statsRaw
  let stats ← statsItems.mapM (fun stat => do
    let statObj ← pyGetD stat "stat" (.obj [])
    let k ← pyGet statObj "name"
    let v ← pyGet stat "base_stat"
    pure (k, v))
  let typesRaw ← pyGetD p "types" (.arr [])
  let typesItems ← pyIter typesRaw
  let types ← typesItems.mapM (fun it => do
    let t ← pyGetD it "type" (.obj [])
    pyGet t "name")
  let movesRaw ← pyGetD p "moves" (.arr [])
  let movesItems ← pyIter movesRaw
  let moves ← movesItems.mapM (fun it => do
    let m ← pySubscript it "move"
    pySubscript m "name")
  let hRaw ← pyGetD p "height" (.num 0)
  let height ← pyDiv10 hRaw
  let wRaw ← pyGetD p "weight" (.num 0)
  let weight ← pyDiv10 wRaw
  let speciesObj ← pyGetD p "species" (.obj [])
  let speciesv ← pyGet speciesObj "name"
  let giRaw ← pyGetD p "game_indices" (.arr [])
  let giItems ← pyIter giRaw
  let gis ← giItems.mapM (fun it => do
    let v ← pySubscript it "version"
    pySubscript v "name")
  pure ⟨idv, orderv, namev, stats, types, moves, height, weight, speciesv, gis⟩

/-- The move branch of transform_data for one payload
(extraction.py lines 140-147). -/
def transformMove (m : JValue) : Except PyErr MoveRecord := do
  let idv ← pyGet m "id"
  let namev ← pyGet m "name"
  let power ← pyGet m "power"
  let pp ← pyGet m "pp"
  let typeObj ← pyGetD m "type" (.obj [])
  let typev ← pyGet typeObj "name"
  let dcObj ← pyGetD m "damage_class" (.obj [])
  let dcv ← pyGet dcObj "name"
  pure ⟨idv, namev, power, pp, typev, dcv⟩

/-- One damage-relation list of the type branch:
type_class.get(damage_relations, {}).get(key, []) iterated, taking
item.get(name) of each element (extraction.py lines 158-193). -/
def damageRelation (tc : JValue) (key : String) : Except PyErr (List JValue) := do
  let dr ← pyGetD tc "damage_relations" (.obj [])
  let xs ← pyGetD dr key (.arr [])
  let items ← pyIter xs
  items.mapM (fun it => pyGet it "name")

/-- The type branch of transform_data for one payload
(extraction.py lines 154-195). -/
def transformType (tc : JValue) : Except PyErr TypeRecord := do
  let idv ← pyGet tc "id"
  let namev ← pyGet tc "name"
  let ddf ← damageRelation tc "double_damage_from"
  let ddt ← damageRelation tc "double_damage_to"
  let hdf ← damageRelation tc "half_damage_from"
  let hdt ← damageRelation tc "half_damage_to"
  let ndf ← damageRelation tc "no_damage_from"
  let ndt ← damageRelation tc "no_damage_to"
  pure ⟨idv, namev, ddf, ddt, hdf, hdt, ndf, ndt⟩

/-- The ability branch of transform_data for one payload
(extraction.py lines 202-208). -/
def transformAbility (a : JValue) : Except PyErr AbilityRecord := do
  let idv ← pyGet a "id"
  let namev ← pyGet a "name"
  let pkRaw ← pyGetD a "pokemon" (.arr [])
  let pkItems ← pyIter pkRaw
  let pk ← pkItems.mapM (fun it => do
    let x ← pySubscript it "pokemon"
    pySubscript x "name")
  pure ⟨idv, namev, pk⟩

/-- The item branch of transform_data for one payload
(extraction.py lines 214-218). -/
def transformItem (i : JValue) : Except PyErr ItemRecord := do
  let idv ← pyGet i "id"
  let namev ← pyGet i "name"
  let catObj ← pyGetD i "category" (.obj [])
  let catv ← pyGetD catObj "name" (.arr [])
  pure ⟨idv, namev, catv⟩

/-- A Python list comprehension with an if-x-is-not-None filter: None
elements are skipped, the body runs left to right on the rest, the first
exception propagates (the pokemon, move and type branches). -/
def mapSkipNone {α : Type} (f : JValue → Except PyErr α) :
    List (Option JValue) → Except PyErr (List α)
  | [] => .ok []
  | none :: rest => mapSkipNone f rest
  | some v :: rest => do
    let r ← f v
    let rs ← mapSkipNone f rest
    pure (r :: rs)

/-- A Python list comprehension with no filter over possibly-None elements:
a None element raises AttributeError at its first attribute access, earlier
elements having been processed first (the ability and item branches). -/
def mapRequireAll {α : Type} (f : JValue → Except PyErr α) :
    List (Option JValue) → Except PyErr (List α)
  | [] => .ok []
  | none :: _ => .error .attributeError
  | some v :: rest => do
    let r ← f v
    let rs ← mapRequireAll f rest
    pure (r :: rs)

/-- transform_data (extraction.py lines 88-220): dispatch on the
data_class string; the pokemon, move and type comprehensions filter out
None elements, the ability and item comprehensions do not; an unknown
class falls off the elif chain and returns Python None (modelled as
Option.none in the result). -/
def transform_data (data : List (Option JValue)) (data_class : String) :
    Except PyErr (Option (List NormalizedRecord)) :=
  if data_class = "pokemon" then
    (mapSkipNone transformPokemon data).map
      (fun rs => some (rs.map NormalizedRecord.pokemon))
  else if data_class = "move" then
    (mapSkipNone transformMove data).map
      (fun rs => some (rs.map NormalizedRecord.move))
  else if data_class = "type" then
    (mapSkipNone transformType data).map
      (fun rs => some (rs.map NormalizedRecord.type))
  else if data_class = "ability" then
    (mapRequireAll transformAbility data).map
      (fun rs => some (rs.map NormalizedRecord.ability))
  else if data_class = "item" then
    (mapRequireAll transformItem data).map
      (fun rs => some (rs.map NormalizedRecord.item))
  else .ok none

/-- Sequential left-to-right effectful mapping, the comparison point for
the drop-the-absent-slots behavior: process every element, propagating
the first error. -/
def seqMapE {α : Type} (f : JValue → Except PyErr α) : List JValue → Except PyErr (List α)
  | [] => .ok []
  | v :: rest => do
    let r ← f v
    let rs ← seqMapE f rest
    pure (r :: rs)

/-! ## Transport (api_call, extraction.py lines 39-59)

The environment of one requests.get call is modelled by TransportOutcome:
the call either fails before producing a response (connection refused,
timeout) or produces a final response with a status code and an
optionally JSON-decodable body.  requests follows redirects only when a
Location header and a redirect status are present, so final responses of
any status class are reachable (a 300 with a body, a 301 without
Location, a 304), and raise_for_status raises HTTPError only for status
codes 400-599.  Every fault raised in the try block is a requests
RequestException (JSONDecodeError is a RequestException subclass), which
is exactly what the except clause of api_call catches. -/

/-- A transport-level fault, the cause carried by a RequestException. -/
inductive TransportFault where
  | connectionError : TransportFault
  | timeoutError : TransportFault
  | httpError : Nat → TransportFault
  | jsonError : TransportFault
deriving DecidableEq

/-- A Python exception as seen by the except clause of api_call: either a
requests RequestException carrying a transport fault, or any other
exception. -/
inductive PyException where
  | requestExc : TransportFault → PyException
  | otherExc : PyException
deriving DecidableEq

/-- Whether an exception is caught by except requests.exceptions.RequestException. -/
def PyException.isRequestException : PyException → Bool
  | .requestExc _ => true
  | .otherExc => false

/-- The environment of one network fetch. -/
inductive TransportOutcome where
  | connectionRefused : TransportOutcome
  | timeout : TransportOutcome
  | response : Nat → Option JValue → TransportOutcome

/-- An HTTP response: status code and body (none when the body is not
decodable JSON). -/
structure HttpResponse where
  status : Nat
  body : Option JValue

/-- requests.get: raises a RequestException on connection failure or
timeout, otherwise returns the (redirect-resolved) response. -/
def requestsGet : TransportOutcome → Except PyException HttpResponse
  | .connectionRefused => .error (.requestExc .connectionError)
  | .timeout => .error (.requestExc .timeoutError)
  | .response s b => .ok ⟨s, b⟩

/-- response.raise_for_status: raises HTTPError (a RequestException)
exactly for the client-error and server-error status codes 400-599;
every other final status (1xx, 2xx, 3xx) passes through. -/
def raiseForStatus (r : HttpResponse) : Except PyException Unit :=
  if 400 ≤ r.status ∧ r.status < 600 then .error (.requestExc (.httpError r.status)) else .ok ()

/-- response.json(): returns the decoded body or raises
requests.exceptions.JSONDecodeError (a RequestException). -/
def responseJson (r : HttpResponse) : Except PyException JValue :=
  match r.body with
  | some v => .ok v
  | none => .error (.requestExc .jsonError)

/-- The try block of api_call: get, raise_for_status, json. -/
def api_call_body (o : TransportOutcome) : Except PyException JValue := do
  let r ← requestsGet o
  raiseForStatus r
  responseJson r

/-- api_call (extraction.py lines 39-59): runs the try block; a
RequestException is caught, logged and turned into the return value None;
any other exception would propagate. -/
def api_call (o : TransportOutcome) : Except PyException (Option JValue) :=
  match api_call_body o with
  | .ok v => .ok (some v)
  | .error e => if e.isRequestException then .ok none else .error e

/-- The fault that api_call logs before returning None, if any
(logging.error on the caught RequestException). -/
def api_call_logged (o : TransportOutcome) : Option TransportFault :=
  match api_call_body o with
  | .ok _ => none
  | .error (.requestExc f) => some f
  | .error .otherExc => none

/-- The comparison point for the amended transport claim: the parsed
payload for a final response whose status is outside the 400-599 error
range and whose body decodes; None for a connection failure, a timeout,
a 4xx or 5xx status, or an undecodable body. -/
def apiCallSpec : TransportOutcome → Option JValue
  | .response s (some v) => if 400 ≤ s ∧ s < 600 then none else some v
  | _ => none

/-! ## Detail Fetcher (fetch_detailed_data, extraction.py lines 74-86)

executor.map submits one api_call task per URL and yields the results in
submission order, so the returned list is the ordered map of the fetch
function over the URLs.  The worker pool is modelled separately by poolRun:
a trace of start/finish events, each finishing worker writing its result
into the output slot of its input index; checkTrace accepts exactly the
traces a pool with the given worker budget can produce. -/

/-- max_workers of the ThreadPoolExecutor (extraction.py line 85). -/
def max_workers : Nat := 20

/-- fetch_detailed_data: list(executor.map(api_call, urls)) returns the
fetch results in input order.  The fetch argument abstracts api_call with
its world (a URL either yields a payload or None). -/
def fetch_detailed_data (fetch : String → Option JValue) (urls : List String) :
    List (Option JValue) :=
  urls.map fetch

/-- One scheduling event of the worker pool: worker for input index i
starts its fetch, or finishes it (writing the result to slot i). -/
inductive PoolEvent where
  | start : Nat → PoolEvent
  | finish : Nat → PoolEvent
deriving DecidableEq

/-- Whether an event is the start of task i. -/
def isStart (i : Nat) : PoolEvent → Bool
  | .start j => i == j
  | _ => false

/-- Whether an event is the finish of task i. -/
def isFinish (i : Nat) : PoolEvent → Bool
  | .finish j => i == j
  | _ => false

/-- The in-flight bound check: scanning the trace, never more than bound
tasks are started and not yet finished. -/
def inFlightOk (bound : Nat) : Nat → List PoolEvent → Bool
  | _, [] => true
  | cur, .start _ :: rest => decide (cur + 1 ≤ bound) && inFlightOk bound (cur + 1) rest
  | cur, .finish _ :: rest => inFlightOk bound (cur - 1) rest

/-- A valid trace of a pool with the given worker budget running n tasks:
every task index is in range, every task starts exactly once and finishes
exactly once, each start precedes its finish, and at most bound tasks are
in flight at any point. -/
def checkTrace (bound n : Nat) (tr : List PoolEvent) : Bool :=
  (List.range n).all (fun i =>
    tr.countP (isStart i) == 1 && tr.countP (isFinish i) == 1 &&
    (tr.dropWhile (fun e => !isStart i e)).countP (isFinish i) == 1) &&
  tr.all (fun e => match e with | .start i => decide (i < n) | .finish i => decide (i < n)) &&
  inFlightOk bound 0 tr

/-- One pool step on the slot list: a finishing worker writes the fetch
result of its input URL into the slot of its input index. -/
def poolStep (fetch : String → Option JValue) (urls : List String)
    (slots : List (Option (Option JValue))) : PoolEvent → List (Option (Option JValue))
  | .start _ => slots
  | .finish i => slots.set i (some (fetch (urls.getD i "")))

/-- Running the pool along a trace: slots begin unfilled and each finish
event fills one. -/
def poolRun (fetch : String → Option JValue) (urls : List String)
    (tr : List PoolEvent) : List (Option (Option JValue)) :=
  tr.foldl (poolStep fetch urls) (List.replicate urls.length none)

/-! ## Pagination Driver (extract_data, extraction.py lines 248-301)

The network is a World: each URL fetch either yields a decoded payload or
None (the total api_call boundary).  The observable side effects of one
run are an ordered event list: the error log line of the abort branch, the
logging.debug line per page, the log_metadata lines, and the single
write_data_to_file call.  The while loop runs on fuel (the source loop
terminates only because the catalog's next chain does); Outcome.fuelOut
marks exhausted fuel, Outcome.exn an uncaught Python exception. -/

/-- The world of one run: what api_call returns for each URL. -/
structure World where
  fetch : String → Option JValue

/-- base_url of the Extraction class (extraction.py line 25). -/
def base_url : String := "https://pokeapi.co/api/v2/"

/-- self.endpoints (extraction.py lines 31-37); an unknown class is a
missing dict key. -/
def endpoints (data_class : String) : Option String :=
  if data_class = "pokemon" then some (base_url ++ "pokemon-species/")
  else if data_class = "type" then some (base_url ++ "type/")
  else if data_class = "move" then some (base_url ++ "move/")
  else if data_class = "ability" then some (base_url ++ "ability/")
  else if data_class = "item" then some (base_url ++ "item/")
  else none

/-- Removal of every occurrence of a pattern from a character list,
scanning left to right (the semantics of re.sub(pat, empty, s) for a
literal pattern); fuel-driven so that it computes by kernel reduction,
called with fuel = length of the scanned list. -/
def removeAllAux (pat : List Char) : Nat → List Char → List Char
  | 0, _ => []
  | _ + 1, [] => []
  | fuel + 1, c :: rest =>
    if pat.isPrefixOf (c :: rest) && !pat.isEmpty then
      removeAllAux pat fuel (rest.drop (pat.length - 1))
    else c :: removeAllAux pat fuel rest

/-- re.sub("-species", "", s) (extraction.py line 280): removes every
occurrence of the literal pattern -species. -/
def removeSpecies (s : String) : String :=
  String.mk (removeAllAux "-species".toList s.toList.length s.toList)

/-- The per-entry part of the data_urls computation (extraction.py lines
278-284): data_item[url] (the URL must be a string to be fetched), with
the re.sub species rewrite applied only for the pokemon class. -/
def entryUrl (data_class : String) (it : JValue) : Except PyErr String := do
  let u ← pySubscript it "url"
  match u with
  | .str s => pure (if data_class = "pokemon" then removeSpecies s else s)
  | _ => .error .typeError

/-- The whole data_urls list of one page: data[results] iterated, the
entry URL of each stub. -/
def pageUrls (data_class : String) (data : JValue) : Except PyErr (List String) := do
  let rs ← pySubscript data "results"
  let items ← pyIter rs
  items.mapM (entryUrl data_class)

/-- One observable side effect of extract_data. -/
inductive Event where
  | errorLog : Event
  | debugLog : Event
  | metadataLog : String → Nat → JValue → Event
  | sinkWrite : String → List NormalizedRecord → Event

/-- log_metadata (extraction.py lines 222-246) as one observable event
carrying the class, the extracted count and the declared API count (the
timestamps are not modelled). -/
def log_metadata (data_class : String) (count : Nat) (api_count : JValue) : Event :=
  .metadataLog data_class count api_count

/-- write_data_to_file (extraction.py lines 61-72) as one observable
event: the artifact name derived from the class, and the full record
list dumped into it. -/
def write_data_to_file (records : List NormalizedRecord) (data_class : String) : Event :=
  .sinkWrite ("data/" ++ data_class ++ ".json") records

/-- How one run ends. -/
inductive Outcome where
  | ok : Outcome
  | aborted : Outcome
  | exn : PyErr → Outcome
  | fuelOut : Outcome
deriving DecidableEq

/-- Prepending one emitted event to the events of the rest of a run. -/
def consEvent (e : Event) (p : List Event × Outcome) : List Event × Outcome :=
  (e :: p.1, p.2)

/-- The while loop of extract_data (extraction.py lines 271-301) plus the
post-loop bookkeeping, with the loop variables url, results, count and
the last fetched page as arguments.  Each branch mirrors the source:
a failed page fetch logs an error and returns (aborted); otherwise the
entry URLs are built, the details fetched, the page transformed,
logging.debug runs, the accumulator and count are extended, and the loop
advances to data[next].  When url is None the loop exits, data[count] is
read from the last page, log_metadata and write_data_to_file run. -/
def extractLoop (w : World) (data_class : String) :
    Nat → JValue → List NormalizedRecord → Nat → JValue → List Event × Outcome
  | 0, _, _, _, _ => ([], .fuelOut)
  | _ + 1, .null, results, count, lastData =>
    match pySubscript lastData "count" with
    | .error e => ([], .exn e)
    | .ok apiCount =>
      ([log_metadata data_class count apiCount, write_data_to_file results data_class], .ok)
  | fuel + 1, .str url, results, count, _ =>
    match w.fetch url with
    | none => ([.errorLog], .aborted)
    | some data =>
      match pageUrls data_class data with
      | .error e => ([], .exn e)
      | .ok urls =>
        match transform_data (fetch_detailed_data w.fetch urls) data_class with
        | .error e => ([], .exn e)
        | .ok none => ([.debugLog], .exn .typeError)
        | .ok (some ts) =>
          match pySubscript data "next" with
          | .error e => ([.debugLog], .exn e)
          | .ok nextUrl =>
            consEvent .debugLog (extractLoop w data_class fuel nextUrl (results ++ ts)
              (count + ts.length) data)
  | _ + 1, _, _, _, _ => ([], .exn .typeError)

/-- extract_data (extraction.py lines 248-301): look up the catalog
endpoint of the class (KeyError on an unknown class) and run the
pagination loop from it with empty accumulator and zero count. -/
def extract_data (fuel : Nat) (w : World) (data_class : String) : List Event × Outcome :=
  match endpoints data_class with
  | none => ([], .exn .keyError)
  | some u => extractLoop w data_class fuel (.str u) [] 0 .null

/-- The chain of catalog pages a world yields from a starting URL value:
some list when every page fetch succeeds and the next links (all string
or None) reach None within fuel, none otherwise. -/
def pagesFrom (w : World) : Nat → JValue → Option (List JValue)
  | 0, _ => none
  | _ + 1, .null => some []
  | fuel + 1, .str url =>
    match w.fetch url with
    | none => none
    | some data =>
      match pySubscript data "next" with
      | .error _ => none
      | .ok nextUrl => (pagesFrom w fuel nextUrl).map (fun rest => data :: rest)
  | _ + 1, _ => none

/-- The processing of one fetched page: entry URLs, detail fetches,
transformation. -/
def pageTransformed (w : World) (data_class : String) (data : JValue) :
    Except PyErr (Option (List NormalizedRecord)) := do
  let urls ← pageUrls data_class data
  transform_data (fetch_detailed_data w.fetch urls) data_class

/-- Whether an event is a sink write. -/
def isSinkEvent : Event → Bool
  | .sinkWrite _ _ => true
  | _ => false

/-- A catalog page of the consumed shape, built from a list of entry
URLs, a next link and a declared count (test fixture for the page-shape
quantified theorems). -/
def mkPage (urls : List String) (next count : JValue) : JValue :=
  .obj [("count", count), ("next", next),
        ("results", .arr (urls.map (fun u => .obj [("name", .str "entry"), ("url", .str u)])))]

/-- The concrete unit-conversion payload of the spec scenario. -/
def c8payload : JValue := .obj [("height", .num 7), ("weight", .num 690)]

/-- The record c8payload transforms to. -/
def c8record : PokemonRecord :=
  ⟨.null, .null, .null, [], [], [], 7 / 10, 690 / 10, .null, []⟩

/-! ## Concrete fixtures used by witnesses -/

/-- A minimal type detail payload. -/
def demoDetail1 : JValue := .obj [("id", .num 1), ("name", .str "normal")]

/-- A second minimal type detail payload. -/
def demoDetail2 : JValue := .obj [("id", .num 2), ("name", .str "fighting")]

/-- The normalized record of demoDetail1. -/
def demoRec1 : NormalizedRecord := .type ⟨.num 1, .str "normal", [], [], [], [], [], []⟩

/-- The normalized record of demoDetail2. -/
def demoRec2 : NormalizedRecord := .type ⟨.num 2, .str "fighting", [], [], [], [], [], []⟩

/-- A single catalog page for the type class with two entries and no next
page. -/
def demoPage : JValue :=
  .obj [("count", .num 2), ("next", .null),
        ("results", .arr [.obj [("name", .str "normal"), ("url", .str "t1")],
                          .obj [("name", .str "fighting"), ("url", .str "t2")]])]

/-- A world serving the type catalog endpoint and the two detail URLs. -/
def demoWorld : World :=
  ⟨fun u =>
    if u = base_url ++ "type/" then some demoPage
    else if u = "t1" then some demoDetail1
    else if u = "t2" then some demoDetail2
    else none⟩

/-- A world on which every fetch fails. -/
def failWorld : World := ⟨fun _ => none⟩

/-! ## Helper lemmas about the Except monad -/

theorem exBind_ok {ε α β : Type} (a : α) (f : α → Except ε β) :
    (Except.ok a : Except ε α) >>= f = f a := rfl

theorem exBind_err {ε α β : Type} (e : ε) (f : α → Except ε β) :
    (Except.error e : Except ε α) >>= f = .error e := rfl

theorem bind_eq_ok {ε α β : Type} {x : Except ε α} {f : α → Except ε β} {c : β} :
    x >>= f = .ok c ↔ ∃ b, x = .ok b ∧ f b = .ok c := by
  cases x with
  | error e => simp [exBind_err]
  | ok b => simp [exBind_ok]

theorem mapSkipNone_eq_filter {α : Type} (f : JValue → Except PyErr α) :
    ∀ ds : List (Option JValue), mapSkipNone f ds = seqMapE f (ds.filterMap id)
  | [] => rfl
  | none :: rest => by
    simpa [mapSkipNone, List.filterMap_cons] using mapSkipNone_eq_filter f rest
  | some v :: rest => by
    simp only [mapSkipNone, List.filterMap_cons, id, seqMapE,
      mapSkipNone_eq_filter f rest]

theorem mapRequireAll_absent {α : Type} (f : JValue → Except PyErr α) :
    ∀ l r : List (Option JValue), ∃ e, mapRequireAll f (l ++ none :: r) = .error e
  | [], _ => ⟨.attributeError, rfl⟩
  | none :: _, _ => ⟨.attributeError, rfl⟩
  | some v :: rest, r => by
    obtain ⟨e, he⟩ := mapRequireAll_absent f rest r
    cases hfv : f v with
    | error e2 => exact ⟨e2, by simp [mapRequireAll, hfv, exBind_err]⟩
    | ok b => exact ⟨e, by simp [mapRequireAll, hfv, he, exBind_ok, exBind_err]⟩

/-! ## Claims about the Record Transformer -/

/-- C1 counterexample: transform_data is not total over every payload
shape.  A pokemon payload whose moves list holds an entry without a move
key raises KeyError at the raw subscript of extraction.py line 124, so
the claim that the error branch of every field access is unreachable is
false. -/
theorem c1_total_cex :
    transform_data [some (.obj [("moves", .arr [.obj []])])] "pokemon" =
      .error .keyError := rfl

/-- C1 amended: for every record class, a payload carrying the required
source fields and missing every optional field transforms, without
raising, into a record whose required fields are populated and whose
optional fields are defaulted to absent or empty; totality over arbitrary
payload shapes does not hold (raw subscripts on moves, game_indices and
ability-pokemon entries, and the first-form index, can raise). -/
theorem c1_defaults_amended :
    (∀ i o : JValue, ∀ nm sp : String,
      transform_data [some (.obj [("id", i), ("order", o),
          ("forms", .arr [.obj [("name", .str nm)]]),
          ("species", .obj [("name", .str sp)])])] "pokemon" =
        .ok (some [.pokemon ⟨i, o, .str nm, [], [], [], 0 / 10, 0 / 10, .str sp, []⟩])) ∧
    (∀ i n : JValue,
      transform_data [some (.obj [("id", i), ("name", n)])] "move" =
        .ok (some [.move ⟨i, n, .null, .null, .null, .null⟩])) ∧
    (∀ i n : JValue,
      transform_data [some (.obj [("id", i), ("name", n)])] "type" =
        .ok (some [.type ⟨i, n, [], [], [], [], [], []⟩])) ∧
    (∀ i n : JValue,
      transform_data [some (.obj [("id", i), ("name", n)])] "ability" =
        .ok (some [.ability ⟨i, n, []⟩])) ∧
    (∀ i n : JValue,
      transform_data [some (.obj [("id", i), ("name", n)])] "item" =
        .ok (some [.item ⟨i, n, .arr []⟩])) :=
  ⟨fun _ _ _ _ => rfl, fun _ _ => rfl, fun _ _ => rfl, fun _ _ => rfl, fun _ _ => rfl⟩

/-- C2 counterexample: the ability branch of transform_data does not
tolerate an absent slot: its comprehension has no is-not-None filter, so
a None element raises AttributeError instead of being dropped. -/
theorem c2_drops_cex :
    transform_data [none] "ability" = .error .attributeError := rfl

/-- C2 amended: for the pokemon, move and type classes transform_data
drops absent slots (it equals the sequential transformation of the
None-filtered input, hence one record per non-absent payload in input
order and no exception caused by an absent slot); for the ability and
item classes any input containing an absent slot raises. -/
theorem c2_drops_amended :
    (∀ ds, transform_data ds "pokemon" =
      (seqMapE transformPokemon (ds.filterMap id)).map
        (fun rs => some (rs.map NormalizedRecord.pokemon))) ∧
    (∀ ds, transform_data ds "move" =
      (seqMapE transformMove (ds.filterMap id)).map
        (fun rs => some (rs.map NormalizedRecord.move))) ∧
    (∀ ds, transform_data ds "type" =
      (seqMapE transformType (ds.filterMap id)).map
        (fun rs => some (rs.map NormalizedRecord.type))) ∧
    (∀ l r, ∃ e, transform_data (l ++ none :: r) "ability" = .error e) ∧
    (∀ l r, ∃ e, transform_data (l ++ none :: r) "item" = .error e) := by
  refine ⟨fun ds => ?_, fun ds => ?_, fun ds => ?_, fun l r => ?_, fun l r => ?_⟩
  · show (mapSkipNone transformPokemon ds).map
      (fun rs => some (rs.map NormalizedRecord.pokemon)) = _
    rw [mapSkipNone_eq_filter]
  · show (mapSkipNone transformMove ds).map
      (fun rs => some (rs.map NormalizedRecord.move)) = _
    rw [mapSkipNone_eq_filter]
  · show (mapSkipNone transformType ds).map
      (fun rs => some (rs.map NormalizedRecord.type)) = _
    rw [mapSkipNone_eq_filter]
  · obtain ⟨e, he⟩ := mapRequireAll_absent transformAbility l r
    exact ⟨e, by show (mapRequireAll transformAbility _).map _ = _; rw [he]; rfl⟩
  · obtain ⟨e, he⟩ := mapRequireAll_absent transformItem l r
    exact ⟨e, by show (mapRequireAll transformItem _).map _ = _; rw [he]; rfl⟩

theorem entryUrl_mkStub (dc : String) (u : String) :
    entryUrl dc (.obj [("name", .str "entry"), ("url", .str u)]) =
      .ok (if dc = "pokemon" then removeSpecies u else u) := rfl

theorem pageUrls_mkPage (dc : String) (urls : List String) (next count : JValue) :
    pageUrls dc (mkPage urls next count) =
      .ok (urls.map (fun u => if dc = "pokemon" then removeSpecies u else u)) := by
  show (urls.map (fun u => .obj [("name", .str "entry"), ("url", .str u)])).mapM
      (entryUrl dc) = _
  induction urls with
  | nil => rfl
  | cons u rest ih =>
    rw [List.map_cons, List.mapM_cons, entryUrl_mkStub, exBind_ok, ih, exBind_ok]
    rfl

/-- C9: for the pokemon class every stub locator extracted from a catalog
page is rewritten by removing the -species segment before detail fetching
(on the catalog's species URLs this yields the full detail endpoint of
the pokemon), while for the type, move, ability and item classes the stub
locators are used unchanged. -/
theorem c9_species_rewrite :
    (∀ urls next count, pageUrls "pokemon" (mkPage urls next count) =
      .ok (urls.map removeSpecies)) ∧
    (∀ urls next count, pageUrls "type" (mkPage urls next count) = .ok urls) ∧
    (∀ urls next count, pageUrls "move" (mkPage urls next count) = .ok urls) ∧
    (∀ urls next count, pageUrls "ability" (mkPage urls next count) = .ok urls) ∧
    (∀ urls next count, pageUrls "item" (mkPage urls next count) = .ok urls) ∧
    removeSpecies (base_url ++ "pokemon-species/25/") = base_url ++ "pokemon/25/" := by
  refine ⟨fun urls next count => ?_, fun urls next count => ?_, fun urls next count => ?_,
    fun urls next count => ?_, fun urls next count => ?_, rfl⟩ <;>
    rw [pageUrls_mkPage] <;> simp

/-! ## Claims about the Detail Fetcher -/

theorem poolFold_length (fetch : String → Option JValue) (urls : List String) :
    ∀ (tr : List PoolEvent) (init : List (Option (Option JValue))),
      (tr.foldl (poolStep fetch urls) init).length = init.length
  | [], _ => rfl
  | e :: rest, init => by
    rw [List.foldl_cons, poolFold_length fetch urls rest]
    cases e with
    | start i => rfl
    | finish i => simp [poolStep]

theorem poolFold_getElem (fetch : String → Option JValue) (urls : List String) :
    ∀ (tr : List PoolEvent) (init : List (Option (Option JValue))) (j : Nat),
      j < init.length →
      (tr.foldl (poolStep fetch urls) init)[j]? =
        if tr.any (isFinish j) then some (some (fetch (urls.getD j ""))) else init[j]?
  | [], init, j, _ => by simp
  | .start k :: rest, init, j, hj => by
    rw [List.foldl_cons]
    simpa [poolStep, isFinish] using poolFold_getElem fetch urls rest init j hj
  | .finish k :: rest, init, j, hj => by
    rw [List.foldl_cons,
      show poolStep fetch urls init (.finish k) =
        init.set k (some (fetch (urls.getD k ""))) from rfl]
    by_cases hjk : j = k
    · subst hjk
      rw [poolFold_getElem fetch urls rest _ j (by simpa using hj)]
      by_cases hany : rest.any (isFinish j)
      · simp [hany, isFinish]
      · simp [hany, isFinish, List.getElem?_set_self hj]
    · rw [poolFold_getElem fetch urls rest _ j (by simpa using hj)]
      rw [List.getElem?_set_ne (fun h => hjk h.symm)]
      simp [isFinish, hjk]

/-- C5: for every input URL sequence and every valid schedule of the
bounded worker pool (each task starting and finishing exactly once, at
most max_workers = 20 in flight), the slots the finishing workers fill
coincide with fetch_detailed_data, the ordered map of the fetch over the
input: same length as the input and, at every index, the fetch result of
the input URL at that index, regardless of completion order. -/
theorem c5_fetch_order (fetch : String → Option JValue) (urls : List String)
    (tr : List PoolEvent) (htr : checkTrace max_workers urls.length tr = true) :
    poolRun fetch urls tr = (fetch_detailed_data fetch urls).map some ∧
    (fetch_detailed_data fetch urls).length = urls.length ∧
    ∀ j, j < urls.length →
      (fetch_detailed_data fetch urls)[j]? = some (fetch (urls.getD j "")) := by
  have hfin : ∀ j, j < urls.length → tr.any (isFinish j) = true := by
    intro j hj
    have htr2 := htr
    rw [checkTrace] at htr2
    simp only [Bool.and_eq_true] at htr2
    obtain ⟨⟨hA, _⟩, _⟩ := htr2
    rw [List.all_eq_true] at hA
    have h2 := hA j (by simpa using hj)
    simp only [Bool.and_eq_true] at h2
    obtain ⟨⟨_, h3⟩, _⟩ := h2
    have h4 : tr.countP (isFinish j) = 1 := by simpa using h3
    have h5 : 0 < tr.countP (isFinish j) := by omega
    rw [List.countP_pos_iff] at h5
    obtain ⟨e, he, hpe⟩ := h5
    rw [List.any_eq_true]
    exact ⟨e, he, hpe⟩
  refine ⟨?_, by simp [fetch_detailed_data], ?_⟩
  · apply List.ext_getElem?
    intro j
    by_cases hj : j < urls.length
    · rw [poolRun, poolFold_getElem fetch urls tr _ j (by simpa using hj),
        if_pos (hfin j hj)]
      rw [fetch_detailed_data, List.getElem?_map, List.getElem?_map,
        List.getElem?_eq_getElem hj]
      simp [List.getD_eq_getElem?_getD, List.getElem?_eq_getElem hj]
    · have hge : urls.length ≤ j := Nat.le_of_not_lt hj
      have hL : (poolRun fetch urls tr).length ≤ j := by
        rw [poolRun, poolFold_length]
        simpa using hge
      rw [List.getElem?_eq_none hL,
        List.getElem?_eq_none (by simpa [fetch_detailed_data] using hge)]
  · intro j hj
    rw [fetch_detailed_data, List.getElem?_map, List.getElem?_eq_getElem hj]
    simp [List.getD_eq_getElem?_getD, List.getElem?_eq_getElem hj]

/-- C5 witness: a two-URL batch whose workers finish out of order (task 1
before task 0, both within the budget of 20) still yields the results in
input order. -/
theorem c5_fetch_order_witness :
    poolRun demoWorld.fetch ["t1", "t2"] [.start 0, .start 1, .finish 1, .finish 0] =
      (fetch_detailed_data demoWorld.fetch ["t1", "t2"]).map some ∧
    (fetch_detailed_data demoWorld.fetch ["t1", "t2"]).length =
      (["t1", "t2"] : List String).length ∧
    ∀ j, j < (["t1", "t2"] : List String).length →
      (fetch_detailed_data demoWorld.fetch ["t1", "t2"])[j]? =
        some (demoWorld.fetch ((["t1", "t2"] : List String).getD j "")) :=
  c5_fetch_order demoWorld.fetch ["t1", "t2"]
    [.start 0, .start 1, .finish 1, .finish 0] rfl

/-! ## Claims about Transport -/

/-- C4 counterexample: a reachable final response with the non-2xx
status 300 and a decodable body passes raise_for_status, which raises
only for 400-599, so api_call returns the parsed payload rather than a
failure value; a non-2xx status is therefore not always converted into a
returned failure. -/
theorem c4_non2xx_cex :
    api_call (.response 300 (some (.num 1))) = .ok (some (.num 1)) := rfl

/-- C4 amended: api_call never raises past its boundary: for every
transport outcome it returns a value, namely None for a connection
failure, a timeout, a 4xx or 5xx status, or an undecodable body — with
the underlying cause logged whenever it returns None — and the parsed
payload for a final response with decodable body whose status lies
outside the 400-599 range (the 2xx successes, plus the reachable final
1xx and 3xx responses that requests does not treat as errors). -/
theorem c4_api_call_amended : ∀ o : TransportOutcome,
    api_call o = .ok (apiCallSpec o) ∧
    (apiCallSpec o = none → ∃ f, api_call_logged o = some f) := by
  intro o
  cases o with
  | connectionRefused => exact ⟨rfl, fun _ => ⟨.connectionError, rfl⟩⟩
  | timeout => exact ⟨rfl, fun _ => ⟨.timeoutError, rfl⟩⟩
  | response s b =>
    by_cases hs : 400 ≤ s ∧ s < 600
    · cases b with
      | none =>
        refine ⟨?_, fun _ => ⟨.httpError s, ?_⟩⟩ <;>
          simp [api_call, api_call_body, api_call_logged, requestsGet, raiseForStatus,
            responseJson, apiCallSpec, hs, exBind_ok, exBind_err,
            PyException.isRequestException]
      | some v =>
        refine ⟨?_, fun _ => ⟨.httpError s, ?_⟩⟩ <;>
          simp [api_call, api_call_body, api_call_logged, requestsGet, raiseForStatus,
            responseJson, apiCallSpec, hs, exBind_ok, exBind_err,
            PyException.isRequestException]
    · cases b with
      | none =>
        refine ⟨?_, fun _ => ⟨.jsonError, ?_⟩⟩ <;>
          simp [api_call, api_call_body, api_call_logged, requestsGet, raiseForStatus,
            responseJson, apiCallSpec, hs, exBind_ok, PyException.isRequestException]
      | some v =>
        refine ⟨?_, fun hnone => ?_⟩
        · simp [api_call, api_call_body, requestsGet, raiseForStatus,
            responseJson, apiCallSpec, hs, exBind_ok]
        · rw [apiCallSpec] at hnone
          simp [hs] at hnone

/-- C4 witness: at the connection-refused outcome the fault branch is
exercised: api_call returns the value None and the cause is logged. -/
theorem c4_api_call_amended_witness :
    api_call .connectionRefused = .ok (apiCallSpec .connectionRefused) ∧
    ∃ f, api_call_logged .connectionRefused = some f :=
  ⟨(c4_api_call_amended .connectionRefused).1,
   (c4_api_call_amended .connectionRefused).2 rfl⟩

/-- C8: whenever a pokemon payload carries numeric height and weight
(height defaulting to 0 when absent) and transforms successfully, the
transformed height is the source height divided exactly by 10 and the
transformed weight the source weight divided exactly by 10; in
particular height 7 and weight 690 transform to 0.7 and 69. -/
theorem c8_unit_conversion :
    (∀ (p : JValue) (hq wq : ℚ) (r : PokemonRecord),
      pyGetD p "height" (.num 0) = .ok (.num hq) →
      pyGetD p "weight" (.num 0) = .ok (.num wq) →
      transformPokemon p = .ok r →
      r.height = hq / 10 ∧ r.weight = wq / 10) ∧
    transform_data [some c8payload] "pokemon" =
      .ok (some [.pokemon ⟨.null, .null, .null, [], [], [], 0.7, 69, .null, []⟩]) := by
  constructor
  · intro p hq wq r hh hw htr
    rw [transformPokemon] at htr
    simp only [bind_eq_ok] at htr
    obtain ⟨idv, hid, orderv, hord, formsv, hforms, firstForm, hff, namev, hname,
      statsRaw, hsrw, statsItems, hsit, stats, hstats, typesRaw, htrw, typesItems, htit,
      types, htys, movesRaw, hmrw, movesItems, hmit, moves, hmvs, hRaw, hhr, heightv, hht,
      wRaw, hwr, weightv, hwt, speciesObj, hso, speciesv, hsv, giRaw, hgr, giItems, hgi,
      gis, hgis, hfin⟩ := htr
    injection hfin with hfin2
    rw [hh] at hhr
    injection hhr with hhr2
    rw [hw] at hwr
    injection hwr with hwr2
    subst hfin2
    rw [← hhr2] at hht
    rw [← hwr2] at hwt
    injection hht with hht2
    injection hwt with hwt2
    exact ⟨hht2.symm, hwt2.symm⟩
  · have h7 : (0.7 : ℚ) = 7 / 10 := by norm_num
    have h69 : (69 : ℚ) = 690 / 10 := by norm_num
    rw [h7, h69]
    rfl

/-- C8 witness: the height 7, weight 690 payload satisfies the
hypotheses and converts to 7/10 and 690/10. -/
theorem c8_unit_conversion_witness :
    c8record.height = 7 / 10 ∧ c8record.weight = 690 / 10 :=
  c8_unit_conversion.1 c8payload 7 690 c8record rfl rfl rfl

/-- C10: a pokemon payload whose forms key is present but bound to an
empty list raises IndexError at the first-form index; the non-empty
default list is substituted only when the key is entirely absent, in
which case the name defaults to None; a present non-empty forms list
yields the first form's name. -/
theorem c10_forms_empty :
    transform_data [some (.obj [("forms", .arr [])])] "pokemon" = .error .indexError ∧
    transform_data [some (.obj [])] "pokemon" =
      .ok (some [.pokemon ⟨.null, .null, .null, [], [], [], 0 / 10, 0 / 10, .null, []⟩]) ∧
    transform_data [some (.obj [("forms", .arr [.obj [("name", .str "bulbasaur")]])])]
        "pokemon" =
      .ok (some [.pokemon
        ⟨.null, .null, .str "bulbasaur", [], [], [], 0 / 10, 0 / 10, .null, []⟩]) :=
  ⟨rfl, rfl, rfl⟩

/-! ## Claims about the Pagination Driver -/

theorem extractLoop_aborted (w : World) (dc : String) :
    ∀ (fuel : Nat) (url : JValue) (results : List NormalizedRecord) (count : Nat)
      (lastData : JValue) (evs : List Event),
      extractLoop w dc fuel url results count lastData = (evs, .aborted) →
      ∃ k, evs = List.replicate k Event.debugLog ++ [Event.errorLog] := by
  intro fuel
  induction fuel with
  | zero =>
    intro url results count lastData evs h
    simp [extractLoop] at h
  | succ n ih =>
    intro url results count lastData evs h
    cases url with
    | null =>
      cases hcnt : pySubscript lastData "count" with
      | error e => simp [extractLoop, hcnt] at h
      | ok apiCount => simp [extractLoop, hcnt] at h
    | num q => simp [extractLoop] at h
    | str s =>
      cases hf : w.fetch s with
      | none =>
        simp only [extractLoop, hf] at h
        rw [Prod.mk.injEq] at h
        refine ⟨0, ?_⟩
        rw [← h.1]
        rfl
      | some data =>
        cases hpu : pageUrls dc data with
        | error e => simp [extractLoop, hf, hpu] at h
        | ok urls =>
          cases htd : transform_data (fetch_detailed_data w.fetch urls) dc with
          | error e => simp [extractLoop, hf, hpu, htd] at h
          | ok o =>
            cases o with
            | none => simp [extractLoop, hf, hpu, htd] at h
            | some ts =>
              cases hnx : pySubscript data "next" with
              | error e => simp [extractLoop, hf, hpu, htd, hnx] at h
              | ok nextUrl =>
                simp only [extractLoop, hf, hpu, htd, hnx, consEvent] at h
                rw [Prod.mk.injEq] at h
                obtain ⟨hfst, hsnd⟩ := h
                obtain ⟨k, hk⟩ := ih nextUrl (results ++ ts) (count + ts.length) data
                  (extractLoop w dc n nextUrl (results ++ ts) (count + ts.length) data).1
                  (by rw [← hsnd])
                refine ⟨k + 1, ?_⟩
                rw [← hfst, hk]
                rfl
    | arr xs => simp [extractLoop] at h
    | obj fs => simp [extractLoop] at h

/-- C3: whenever a run of extract_data ends in the aborted state (some
catalog page fetch returned no payload), the events of the run contain no
sink write at all (the accumulator is discarded, no output artifact is
written), no run-metadata log line (the end time is never stamped), and
one error log line is emitted, surfacing the failure. -/
theorem c3_fatal_page_fetch (fuel : Nat) (w : World) (dc : String)
    (evs : List Event) (h : extract_data fuel w dc = (evs, .aborted)) :
    (∀ records cls, write_data_to_file records cls ∉ evs) ∧
    (∀ cls count apiCount, log_metadata cls count apiCount ∉ evs) ∧
    Event.errorLog ∈ evs := by
  rw [extract_data] at h
  cases he : endpoints dc with
  | none => rw [he] at h; simp at h
  | some u =>
    rw [he] at h
    obtain ⟨k, hk⟩ := extractLoop_aborted w dc fuel (.str u) [] 0 .null evs h
    subst hk
    refine ⟨?_, ?_, ?_⟩
    · intro records cls hmem
      rw [List.mem_append] at hmem
      cases hmem with
      | inl h1 => exact absurd (List.eq_of_mem_replicate h1) (by simp [write_data_to_file])
      | inr h1 => simp [write_data_to_file] at h1
    · intro cls count apiCount hmem
      rw [List.mem_append] at hmem
      cases hmem with
      | inl h1 => exact absurd (List.eq_of_mem_replicate h1) (by simp [log_metadata])
      | inr h1 => simp [log_metadata] at h1
    · simp

/-- C3 witness: a world on which every fetch fails aborts the type run
with exactly one error log line, no sink write and no metadata line. -/
theorem c3_fatal_page_fetch_witness :
    (∀ records cls, write_data_to_file records cls ∉ ([Event.errorLog] : List Event)) ∧
    (∀ cls count apiCount, log_metadata cls count apiCount ∉ ([Event.errorLog] : List Event)) ∧
    Event.errorLog ∈ ([Event.errorLog] : List Event) :=
  c3_fatal_page_fetch 1 failWorld "type" [Event.errorLog] rfl

theorem extractLoop_ok (w : World) (dc : String) :
    ∀ (fuel : Nat) (url : JValue) (results : List NormalizedRecord) (count : Nat)
      (lastData : JValue) (pages : List JValue) (ts : List (List NormalizedRecord))
      (apiCount : JValue),
      pagesFrom w fuel url = some pages →
      List.Forall₂ (fun p t => pageTransformed w dc p = .ok (some t)) pages ts →
      pySubscript (pages.getLastD lastData) "count" = .ok apiCount →
      extractLoop w dc fuel url results count lastData =
        (List.replicate pages.length Event.debugLog ++
          [log_metadata dc (count + (ts.map List.length).sum) apiCount,
           write_data_to_file (results ++ ts.flatten) dc], .ok) := by
  intro fuel
  induction fuel with
  | zero =>
    intro url results count lastData pages ts apiCount hpg hft hc
    simp [pagesFrom] at hpg
  | succ n ih =>
    intro url results count lastData pages ts apiCount hpg hft hc
    cases url with
    | num q => simp [pagesFrom] at hpg
    | arr xs => simp [pagesFrom] at hpg
    | obj fs => simp [pagesFrom] at hpg
    | null =>
      simp only [pagesFrom] at hpg
      injection hpg with hpg2
      subst hpg2
      cases hft
      simp only [List.getLastD] at hc
      simp [extractLoop, hc]
    | str s =>
      cases hf : w.fetch s with
      | none => simp [pagesFrom, hf] at hpg
      | some data =>
        cases hnx : pySubscript data "next" with
        | error e => simp [pagesFrom, hf, hnx] at hpg
        | ok nextUrl =>
          cases hrest : pagesFrom w n nextUrl with
          | none => simp [pagesFrom, hf, hnx, hrest] at hpg
          | some rest =>
            have hpg2 : pages = data :: rest := by
              simp only [pagesFrom, hf, hnx, hrest, Option.map_some'] at hpg
              injection hpg with h2
              exact h2.symm
            subst hpg2
            cases hft with
            | cons hpt hft2 =>
              rename_i t trest
              rw [pageTransformed, bind_eq_ok] at hpt
              obtain ⟨urls, hpu, htd⟩ := hpt
              have hc2 : pySubscript (rest.getLastD data) "count" = .ok apiCount := by
                rw [List.getLastD_cons] at hc
                exact hc
              simp only [extractLoop, hf, hpu, htd, hnx, consEvent]
              rw [ih nextUrl (results ++ t) (count + t.length) data rest trest apiCount
                hrest hft2 hc2]
              simp [List.replicate_succ, Nat.add_assoc, List.append_assoc]

/-- C7: on a run in which every page fetch succeeds and every page
transforms, extract_data ends in the ok state emitting, after the per-page
debug lines, exactly one metadata log followed by exactly one sink write;
the write carries the whole accumulated record sequence: the per-page
transformed records (which per C2 and C5 are in catalog entry order within
a page) concatenated in page-visit order.  The filtered event list shows
the sink is written exactly once, with no incremental writes. -/
theorem c7_single_write (fuel : Nat) (w : World) (dc : String) (u : String)
    (pages : List JValue) (ts : List (List NormalizedRecord)) (apiCount : JValue)
    (hu : endpoints dc = some u)
    (hpg : pagesFrom w fuel (.str u) = some pages)
    (hft : List.Forall₂ (fun p t => pageTransformed w dc p = .ok (some t)) pages ts)
    (hc : pySubscript (pages.getLastD .null) "count" = .ok apiCount) :
    extract_data fuel w dc =
      (List.replicate pages.length Event.debugLog ++
        [log_metadata dc (ts.map List.length).sum apiCount,
         write_data_to_file ts.flatten dc], .ok) ∧
    (extract_data fuel w dc).1.filter isSinkEvent = [write_data_to_file ts.flatten dc] := by
  have h := extractLoop_ok w dc fuel (.str u) [] 0 .null pages ts apiCount hpg hft hc
  simp only [Nat.zero_add, List.nil_append] at h
  have hmain : extract_data fuel w dc =
      (List.replicate pages.length Event.debugLog ++
        [log_metadata dc (ts.map List.length).sum apiCount,
         write_data_to_file ts.flatten dc], .ok) := by
    rw [extract_data, hu]
    exact h
  refine ⟨hmain, ?_⟩
  rw [hmain]
  simp [List.filter_append, isSinkEvent, log_metadata, write_data_to_file]

/-- C7 witness: a one-page type catalog with two entries yields one debug
line, one metadata line and a single sink write carrying both records. -/
theorem c7_single_write_witness :
    extract_data 2 demoWorld "type" =
      ([Event.debugLog, log_metadata "type" 2 (.num 2),
        write_data_to_file [demoRec1, demoRec2] "type"], .ok) ∧
    (extract_data 2 demoWorld "type").1.filter isSinkEvent =
      [write_data_to_file [demoRec1, demoRec2] "type"] :=
  c7_single_write 2 demoWorld "type" (base_url ++ "type/") [demoPage]
    [[demoRec1, demoRec2]] (.num 2) rfl rfl
    (List.Forall₂.cons rfl List.Forall₂.nil) rfl

theorem map_wrap_ok {α : Type} {x : Except PyErr (List α)} {g : α → NormalizedRecord}
    {ts : List NormalizedRecord}
    (h : x.map (fun rs => some (rs.map g)) = .ok (some ts)) :
    ∃ rs, x = .ok rs ∧ ts = rs.map g := by
  cases x with
  | error e => simp [Except.map] at h
  | ok rs =>
    refine ⟨rs, rfl, ?_⟩
    simp [Except.map] at h
    exact h.symm

theorem mapSkipNone_length {α : Type} (f : JValue → Except PyErr α) :
    ∀ (ds : List (Option JValue)) (rs : List α),
      (∀ d ∈ ds, d.isSome) → mapSkipNone f ds = .ok rs → rs.length = ds.length
  | [], rs, _, h => by
    injection h with h2
    rw [← h2]
    rfl
  | none :: _, _, hall, _ => by
    have hno := hall none (by simp)
    simp at hno
  | some v :: rest, rs, hall, h => by
    simp only [mapSkipNone] at h
    rw [bind_eq_ok] at h
    obtain ⟨r, _, h⟩ := h
    rw [bind_eq_ok] at h
    obtain ⟨rs2, hrs2, h⟩ := h
    injection h with h2
    rw [← h2, List.length_cons, List.length_cons,
      mapSkipNone_length f rest rs2 (fun d hd => hall d (by simp [hd])) hrs2]

theorem mapRequireAll_length {α : Type} (f : JValue → Except PyErr α) :
    ∀ (ds : List (Option JValue)) (rs : List α),
      mapRequireAll f ds = .ok rs → rs.length = ds.length
  | [], rs, h => by
    injection h with h2
    rw [← h2]
    rfl
  | none :: _, _, h => by simp [mapRequireAll] at h
  | some v :: rest, rs, h => by
    simp only [mapRequireAll] at h
    rw [bind_eq_ok] at h
    obtain ⟨r, _, h⟩ := h
    rw [bind_eq_ok] at h
    obtain ⟨rs2, hrs2, h⟩ := h
    injection h with h2
    rw [← h2, List.length_cons, List.length_cons,
      mapRequireAll_length f rest rs2 hrs2]

theorem transform_length (dc : String) (ds : List (Option JValue))
    (ts : List NormalizedRecord) (hall : ∀ d ∈ ds, d.isSome)
    (h : transform_data ds dc = .ok (some ts)) : ts.length = ds.length := by
  rw [transform_data] at h
  split_ifs at h
  · obtain ⟨rs, hrs, hts⟩ := map_wrap_ok h
    rw [hts, List.length_map, mapSkipNone_length transformPokemon ds rs hall hrs]
  · obtain ⟨rs, hrs, hts⟩ := map_wrap_ok h
    rw [hts, List.length_map, mapSkipNone_length transformMove ds rs hall hrs]
  · obtain ⟨rs, hrs, hts⟩ := map_wrap_ok h
    rw [hts, List.length_map, mapSkipNone_length transformType ds rs hall hrs]
  · obtain ⟨rs, hrs, hts⟩ := map_wrap_ok h
    rw [hts, List.length_map, mapRequireAll_length transformAbility ds rs hrs]
  · obtain ⟨rs, hrs, hts⟩ := map_wrap_ok h
    rw [hts, List.length_map, mapRequireAll_length transformItem ds rs hrs]
  · simp at h

theorem pages_len_eq (w : World) (dc : String) :
    ∀ (pages : List JValue) (ts : List (List NormalizedRecord))
      (uss : List (List String)),
      List.Forall₂ (fun p t => pageTransformed w dc p = .ok (some t)) pages ts →
      List.Forall₂ (fun p us => pageUrls dc p = .ok us) pages uss →
      (∀ us ∈ uss, ∀ u2 ∈ us, (w.fetch u2).isSome) →
      ts.map List.length = uss.map List.length
  | [], ts, uss, hft, hpu, _ => by
    cases hft
    cases hpu
    rfl
  | p :: prest, ts, uss, hft, hpu, hall => by
    cases hft with
    | cons hpt hft2 =>
      cases hpu with
      | cons hpuh hpu2 =>
        rename_i t trest us usrest
        rw [pageTransformed, bind_eq_ok] at hpt
        obtain ⟨urls, hpu3, htd⟩ := hpt
        rw [hpuh] at hpu3
        injection hpu3 with he
        subst he
        have hallds : ∀ d ∈ fetch_detailed_data w.fetch us, d.isSome := by
          intro d hd
          rw [fetch_detailed_data] at hd
          obtain ⟨u2, hu2, hdu⟩ := List.mem_map.mp hd
          rw [← hdu]
          exact hall us (by simp) u2 hu2
        have hlen : t.length = us.length := by
          rw [transform_length dc (fetch_detailed_data w.fetch us) t hallds htd,
            fetch_detailed_data, List.length_map]
        rw [List.map_cons, List.map_cons, hlen,
          pages_len_eq w dc prest trest usrest hft2 hpu2
            (fun us2 hus2 => hall us2 (by simp [hus2]))]

/-- C6: on a run in which every page fetch succeeds and every page
transforms, the final accumulator (the record list handed to the single
sink write) has length equal to the sum over the pages of the
successfully transformed entries; and when additionally no detail fetch
fails, that length equals the total number of catalog entries, hence the
declared count of a catalog whose count field matches its entries. -/
theorem c6_accumulator_count (fuel : Nat) (w : World) (dc : String) (u : String)
    (pages : List JValue) (ts : List (List NormalizedRecord))
    (uss : List (List String)) (apiCount : JValue)
    (hu : endpoints dc = some u)
    (hpg : pagesFrom w fuel (.str u) = some pages)
    (hft : List.Forall₂ (fun p t => pageTransformed w dc p = .ok (some t)) pages ts)
    (hc : pySubscript (pages.getLastD .null) "count" = .ok apiCount) :
    extract_data fuel w dc =
      (List.replicate pages.length Event.debugLog ++
        [log_metadata dc (ts.map List.length).sum apiCount,
         write_data_to_file ts.flatten dc], .ok) ∧
    ts.flatten.length = (ts.map List.length).sum ∧
    (List.Forall₂ (fun p us => pageUrls dc p = .ok us) pages uss →
      (∀ us ∈ uss, ∀ u2 ∈ us, (w.fetch u2).isSome) →
      ts.flatten.length = (uss.map List.length).sum) := by
  have h := extractLoop_ok w dc fuel (.str u) [] 0 .null pages ts apiCount hpg hft hc
  simp only [Nat.zero_add, List.nil_append] at h
  refine ⟨?_, List.length_flatten ts, ?_⟩
  · rw [extract_data, hu]
    exact h
  · intro hpu hall
    rw [List.length_flatten, pages_len_eq w dc pages ts uss hft hpu hall]

/-- C6 witness: the one-page two-entry type catalog with declared count 2
and no failing detail fetch accumulates exactly 2 records. -/
theorem c6_accumulator_count_witness :
    extract_data 2 demoWorld "type" =
      ([Event.debugLog, log_metadata "type" 2 (.num 2),
        write_data_to_file [demoRec1, demoRec2] "type"], .ok) ∧
    ([[demoRec1, demoRec2]] : List (List NormalizedRecord)).flatten.length =
      (([["t1", "t2"]] : List (List String)).map List.length).sum := by
  have h := c6_accumulator_count 2 demoWorld "type" (base_url ++ "type/") [demoPage]
    [[demoRec1, demoRec2]] [["t1", "t2"]] (.num 2) rfl rfl
    (List.Forall₂.cons rfl List.Forall₂.nil) rfl
  exact ⟨h.1, h.2.2 (List.Forall₂.cons rfl List.Forall₂.nil) (by decide)⟩
